import Mathlib

/-!
Verification development for the Triglyceride Localization via
Edge-Triggered Segmentation system (`src/main.py`).

The Python program is embedded shallowly:
* images are rectangular grids of BGR pixels (`Image`), channel values
  are naturals in `[0, 255]`;
* `cv2.cvtColor(..., COLOR_BGR2HSV)` is embedded per-pixel by the
  documented OpenCV 8-bit formula (`bgr2hsv`);
* `cv2.getStructuringElement(MORPH_ELLIPSE, (30, 30))` is embedded by
  OpenCV's row-wise ellipse rasterisation (`kernelEllipse`);
* `cv2.dilate` with constant border is `dilate30`;
* percentages and day identifiers are rationals (the Python floats in
  this program are produced by exact small-integer arithmetic), and the
  statistics that need a square root live in `ℝ`.
-/

set_option maxHeartbeats 1000000

/-- A BGR pixel; channel order matches OpenCV's `imread` buffers. -/
structure Pixel where
  b : ℕ
  g : ℕ
  r : ℕ
deriving DecidableEq, Repr

/-- All three channels are 8-bit values. -/
def Pixel.valid (p : Pixel) : Prop :=
  p.b ≤ 255 ∧ p.g ≤ 255 ∧ p.r ≤ 255

instance (p : Pixel) : Decidable p.valid := by
  unfold Pixel.valid; infer_instance

/-- An HSV pixel as produced by OpenCV's 8-bit conversion: hue in
`[0, 180)`, saturation and value in `[0, 255]`. -/
structure HSVPix where
  h : ℤ
  s : ℤ
  v : ℕ
deriving DecidableEq, Repr

/-- Round half to even on rationals (`cvRound` semantics, the default
IEEE rounding used by OpenCV when casting a float result to an
integer channel value). -/
def rhe (x : ℚ) : ℤ :=
  let f := ⌊x⌋
  if x - f < 1/2 then f
  else if 1/2 < x - f then f + 1
  else if f % 2 = 0 then f else f + 1

/-- Embeds `saturate_cast<uchar>`: round, then clamp to `[0, 255]`. -/
def satCast (x : ℚ) : ℕ :=
  (max 0 (min 255 (rhe x))).toNat

/-- One pixel of `cv2.cvtColor(image, cv2.COLOR_BGR2HSV)`, following the
documented OpenCV 8-bit formula: `V = max(B,G,R)`,
`S = round(255 * (V - min) / V)` (0 when `V = 0`), and the hue in degrees
halved into `[0, 180)`. -/
def bgr2hsv (p : Pixel) : HSVPix :=
  let mx := max p.r (max p.g p.b)
  let mn := min p.r (min p.g p.b)
  let s : ℤ := if mx = 0 then 0 else rhe (255 * ((mx : ℚ) - mn) / mx)
  let d : ℚ := (mx : ℚ) - mn
  let hdeg : ℚ :=
    if d = 0 then 0
    else if p.r = mx then 60 * ((p.g : ℚ) - p.b) / d
    else if p.g = mx then 120 + 60 * ((p.b : ℚ) - p.r) / d
    else 240 + 60 * ((p.r : ℚ) - p.g) / d
  let hdeg : ℚ := if hdeg < 0 then hdeg + 360 else hdeg
  ⟨rhe (hdeg / 2), s, mx⟩

/-- Thresholds `lower_yellow = [20, 100, 100]` and `upper_yellow = [35, 255, 255]`:
`cv2.inRange(hsv, lower_yellow, upper_yellow)` for one pixel. -/
def inRangeYellow (q : HSVPix) : Bool :=
  decide (20 ≤ q.h) && decide (q.h ≤ 35) &&
  decide (100 ≤ q.s) && decide (q.s ≤ 255) &&
  decide (100 ≤ q.v) && decide (q.v ≤ 255)

/-- Rounded integer square root: `round(sqrt n)` for a natural `n`
(`saturate_cast<int>` of the exact real square root; a tie `k + 1/2`
never occurs for integer radicands). -/
def roundSqrt (n : ℕ) : ℕ :=
  let s := Nat.findGreatest (fun k => k * k ≤ n) n
  if s * (s + 1) < n then s + 1 else s

/-- Embeds `cv2.getStructuringElement(cv2.MORPH_ELLIPSE, (30, 30))`, following
OpenCV's rasterisation: for row `ki` with `dy = ki - 15`, columns
`[max(15 - dx, 0), min(15 + dx + 1, 30))` are set, where
`dx = round(sqrt(225 - dy^2))`. -/
def kernelEllipse (ki kj : ℕ) : Bool :=
  let dy : ℤ := (ki : ℤ) - 15
  if dy.natAbs ≤ 15 then
    let dx := roundSqrt (225 - dy.natAbs ^ 2)
    let j1 := 15 - dx
    let j2 := min (15 + dx + 1) 30
    decide (j1 ≤ kj) && decide (kj < j2)
  else false

/-- Embeds `cv2.dilate(mask, kernel, iterations=1)` on an `h × w` mask with the
30×30 elliptical kernel, anchor `(14, 14)`, constant (non-contributing)
border: output pixel `(i, j)` is set iff some set kernel cell hits a set
in-bounds mask pixel. -/
def dilate30 (h w : ℕ) (m : ℕ → ℕ → Bool) (i j : ℕ) : Bool :=
  (List.range 30).any fun ki =>
    (List.range 30).any fun kj =>
      kernelEllipse ki kj &&
      (let a : ℤ := (i : ℤ) + ki - 14
       let b : ℤ := (j : ℤ) + kj - 14
       decide (0 ≤ a) && decide (a < h) && decide (0 ≤ b) && decide (b < w) &&
       m a.toNat b.toNat)

/-- Counts `np.sum(mask > 0)` over an `h × w` mask. -/
def countNonzero (h w : ℕ) (m : ℕ → ℕ → Bool) : ℕ :=
  ∑ i ∈ Finset.range h, ∑ j ∈ Finset.range w, if m i j then 1 else 0

/-- Computes `np.sum(mask > 0) / mask.size * 100`. -/
def maskPercentage (h w : ℕ) (m : ℕ → ℕ → Bool) : ℚ :=
  (countNonzero h w m : ℚ) / ((h * w : ℕ) : ℚ) * 100

/-- An image: height, width, and a pixel function (only indices below
the bounds are meaningful). -/
structure Image where
  h : ℕ
  w : ℕ
  pix : ℕ → ℕ → Pixel

/-- Every pixel of the image is 8-bit valid. -/
def Image.valid (img : Image) : Prop :=
  ∀ i j, (img.pix i j).valid

/-- A single-channel mask with its dimensions. -/
structure Mask where
  h : ℕ
  w : ℕ
  m : ℕ → ℕ → Bool

/-- The threshold mask of `calculate_lipid_percentage` before dilation:
`cv2.inRange(cv2.cvtColor(image, COLOR_BGR2HSV), lower_yellow, upper_yellow)`. -/
def thresholdMask (img : Image) : ℕ → ℕ → Bool :=
  fun i j => inRangeYellow (bgr2hsv (img.pix i j))

/-- Embeds `calculate_lipid_percentage(image)` from `src/main.py` lines 18–28:
HSV-threshold, dilate once with the 30×30 ellipse, and return
`(np.sum(mask_dilated > 0) / mask_dilated.size * 100, mask_dilated)`. -/
def calculate_lipid_percentage (img : Image) : ℚ × Mask :=
  let mask := thresholdMask img
  let mask_dilated := dilate30 img.h img.w mask
  (maskPercentage img.h img.w mask_dilated, ⟨img.h, img.w, mask_dilated⟩)

/-- The solid magenta layer: `magenta[:] = (255, 0, 255)` in BGR. -/
def magentaPx : Pixel := ⟨255, 0, 255⟩

/-- Embeds `cv2.bitwise_and(magenta, magenta, mask=mask)` for one pixel:
the magenta value where the mask is set, zero elsewhere. -/
def magentaHighlight (mask : Mask) (i j : ℕ) : Pixel :=
  if mask.m i j then magentaPx else ⟨0, 0, 0⟩

/-- One channel of `cv2.addWeighted(a, alpha, b, beta, gamma)`. -/
def addWeightedCh (alpha : ℚ) (a : ℕ) (beta : ℚ) (b : ℕ) (gamma : ℚ) : ℕ :=
  satCast (alpha * a + beta * b + gamma)

/-- One pixel of `cv2.addWeighted`. -/
def addWeightedPx (alpha : ℚ) (p : Pixel) (beta : ℚ) (q : Pixel) (gamma : ℚ) : Pixel :=
  ⟨addWeightedCh alpha p.b beta q.b gamma,
   addWeightedCh alpha p.g beta q.g gamma,
   addWeightedCh alpha p.r beta q.r gamma⟩

/-- The fused overlay of `process_and_save_image` (lines 34–38):
`cv2.addWeighted(image, 1.0, magenta_highlight, 0.5, 0)`. -/
def fusedImage (img : Image) (mask : Mask) : Image :=
  ⟨img.h, img.w, fun i j => addWeightedPx 1 (img.pix i j) (1/2) (magentaHighlight mask i j) 0⟩

/-- One `self.data['processed_paths'][day][idx]` entry. -/
structure ProcessedRecord where
  fused : String
  comparison : String
  original : String
  percentage : ℚ
deriving DecidableEq, Repr

/-- The `self.data` dictionary of `CellCultureAnalysisSystem.__init__`;
the three per-day dictionaries are association lists keyed by the day
identifier. -/
structure SystemData where
  experiment_name : String
  culture_type : String
  days : List ℚ
  images_per_day : List (ℚ × List String)
  results_per_day : List (ℚ × List ℚ)
  processed_paths : List (ℚ × List (ℕ × ProcessedRecord))

/-- Dictionary read with a default. -/
def lookupD {α : Type} (m : List (ℚ × α)) (k : ℚ) (dflt : α) : α :=
  match m.find? (fun e => e.1 == k) with
  | some e => e.2
  | none => dflt

/-- Dictionary assignment `m[k] = v`. -/
def setEntry {α : Type} : List (ℚ × α) → ℚ → α → List (ℚ × α)
  | [], k, v => [(k, v)]
  | e :: rest, k, v => if e.1 == k then (k, v) :: rest else e :: setEntry rest k v

/-- The duplicate-guarded day registration of `step2_process_by_days`
(lines 143–164): a day already present is rejected and the state is
unchanged; a day with no images is not registered; otherwise the day is
appended and its three per-day entries are created. -/
def registerDay (s : SystemData) (day : ℚ) (image_paths : List String) : Bool × SystemData :=
  if day ∈ s.days then (false, s)
  else if image_paths.isEmpty then (false, s)
  else (true,
    { s with
      days := s.days ++ [day]
      images_per_day := setEntry s.images_per_day day image_paths
      results_per_day := setEntry s.results_per_day day []
      processed_paths := setEntry s.processed_paths day [] })

/-- Embeds `os.path.basename`. -/
def basename (path : String) : String := (path.splitOn "/").getLastD path

/-- Python's `sorted` on day identifiers (ascending). -/
def sortedAsc (l : List ℚ) : List ℚ := l.insertionSort (· ≤ ·)

/-- The inner loop of `step3_process_images` (lines 296–324) for one
day: walk the image paths with 1-based indices; a failed load records
the sentinel `0` and creates no processed-paths entry; a successful
load records the computed percentage and a `ProcessedRecord` under the
index. `load` is the `cv2.imread` oracle (`none` = load failure). -/
def processDay (load : String → Option Image) (day : ℚ) (day_folder : String) :
    List String → ℕ → List ℚ × List (ℕ × ProcessedRecord)
  | [], _ => ([], [])
  | path :: rest, idx =>
    let tail := processDay load day day_folder rest (idx + 1)
    match load path with
    | none => (0 :: tail.1, tail.2)
    | some img =>
      let pm := calculate_lipid_percentage img
      let base_img_name := "Day" ++ toString day ++ "_Img" ++ toString idx ++ "_" ++ basename path
      let fused_path := day_folder ++ "/fused_" ++ base_img_name
      let comparison_path := day_folder ++ "/comparison_" ++ base_img_name
      (pm.1 :: tail.1, (idx, ⟨fused_path, comparison_path, path, pm.1⟩) :: tail.2)

/-- The day loop of `step3_process_images` (lines 286–327): for each
day in ascending order, recompute that day's results list and
processed-paths dictionary. -/
def step3Fold (load : String → Option Image) (base_folder : String) :
    List ℚ → SystemData → SystemData
  | [], st => st
  | day :: rest, st =>
    let day_folder := base_folder ++ "/Day_" ++ toString day
    let pd := processDay load day day_folder (lookupD st.images_per_day day []) 1
    step3Fold load base_folder rest
      { st with
        results_per_day := setEntry st.results_per_day day pd.1
        processed_paths := setEntry st.processed_paths day pd.2 }

/-- Embeds `step3_process_images` (lines 272–331): iterate the registered days
in ascending order, processing each day's images. -/
def step3_process_images (load : String → Option Image) (s : SystemData) : SystemData :=
  let base_folder := "Results_" ++ (s.experiment_name.replace " " "_")
  step3Fold load base_folder (sortedAsc s.days) s

/-- Computes `np.mean(values)`. -/
def npMean (vs : List ℚ) : ℚ := vs.sum / vs.length

/-- The radicand of `np.std(values, ddof=1)`: `Σ (v - mean)² / (n - 1)`. -/
def sampleVariance (vs : List ℚ) : ℚ :=
  (vs.map (fun v => (v - npMean vs) ^ 2)).sum / ((vs.length : ℚ) - 1)

/-- Embeds `np.std(values, ddof=1) if len(values) > 1 else 0` (line 366). -/
noncomputable def dayStdDev (vs : List ℚ) : ℝ :=
  if 1 < vs.length then Real.sqrt (sampleVariance vs) else 0

/-- Embeds `std_error = std_dev / np.sqrt(len(values))` (line 367). -/
noncomputable def dayStdError (vs : List ℚ) : ℝ :=
  dayStdDev vs / Real.sqrt (vs.length : ℝ)

/-- Embeds `error_margin = 1.96 * std_error` (line 368). -/
noncomputable def dayErrorMargin (vs : List ℚ) : ℝ :=
  1.96 * dayStdError vs

/-- Computes `np.min(values)` over a nonempty list (0 on the empty list, where
the source never evaluates it). -/
def listMin : List ℚ → ℚ
  | [] => 0
  | v :: rest => rest.foldl min v

/-- Computes `np.max(values)` over a nonempty list. -/
def listMax : List ℚ → ℚ
  | [] => 0
  | v :: rest => rest.foldl max v

/-- The `statistical_results` dictionary of `step4_statistical_analysis`. -/
structure StatisticalResults where
  days : List ℚ
  averages : List ℚ
  standard_deviations : List ℝ
  standard_errors : List ℝ
  error_margins : List ℝ
  num_images : List ℕ
  minimums : List ℚ
  maximums : List ℚ

/-- Embeds `step4_statistical_analysis` (lines 337–396): `None` when the
results dictionary is empty; otherwise, for each day in ascending order
whose values list is nonempty, append that day's statistics to the
result's parallel lists. -/
noncomputable def step4_statistical_analysis (s : SystemData) : Option StatisticalResults :=
  if s.results_per_day.isEmpty then none
  else
    let ds := (sortedAsc s.days).filter (fun d => !(lookupD s.results_per_day d []).isEmpty)
    some
      { days := ds
        averages := ds.map (fun d => npMean (lookupD s.results_per_day d []))
        standard_deviations := ds.map (fun d => dayStdDev (lookupD s.results_per_day d []))
        standard_errors := ds.map (fun d => dayStdError (lookupD s.results_per_day d []))
        error_margins := ds.map (fun d => dayErrorMargin (lookupD s.results_per_day d []))
        num_images := ds.map (fun d => (lookupD s.results_per_day d []).length)
        minimums := ds.map (fun d => listMin (lookupD s.results_per_day d []))
        maximums := ds.map (fun d => listMax (lookupD s.results_per_day d [])) }

/-- Embeds `step5_generate_graphs` (lines 402–550), modelled by the list of
graph files it writes: nothing when the results are absent or have no
days; otherwise the evolution graph, the distribution graph only when
more than one day exists, and the summary graph. -/
def step5_generate_graphs (results : Option StatisticalResults) (base_folder : String) :
    List String :=
  match results with
  | none => []
  | some r =>
    if r.days.isEmpty then []
    else
      [base_folder ++ "/Graph_Evolution.png"] ++
      (if 1 < r.days.length then [base_folder ++ "/Graph_Distribution.png"] else []) ++
      [base_folder ++ "/Graph_Summary.png"]

/-- One row of `Detailed_Data.csv`. -/
structure DetailedRow where
  experiment : String
  culture : String
  day : ℚ
  image_number : ℕ
  file_name : String
  lipid_percentage : ℚ
  original_path : String
  fused_path : String
  comparison_path : String
deriving DecidableEq, Repr

/-- Embeds `enumerate(l, start)`. -/
def enumerate1 {α : Type} : List α → ℕ → List (ℕ × α)
  | [], _ => []
  | a :: rest, start => (start, a) :: enumerate1 rest (start + 1)

/-- Embeds `idx in self.data['processed_paths'][day]` plus the read. -/
def lookupIdx (recs : List (ℕ × ProcessedRecord)) (k : ℕ) : Option ProcessedRecord :=
  (recs.find? (fun e => e.1 == k)).map (fun e => e.2)

/-- The `detailed_data` rows contributed by one day in
`step6_save_to_csv` (lines 569–583): one row per image index that has a
processed-paths entry; indices without an entry produce no row. -/
def detailedRowsForDay (s : SystemData) (day : ℚ) : List DetailedRow :=
  (enumerate1 (lookupD s.images_per_day day []) 1).filterMap fun e =>
    match lookupIdx (lookupD s.processed_paths day []) e.1 with
    | some data =>
      some ⟨s.experiment_name, s.culture_type, day, e.1, basename e.2,
            data.percentage, e.2, data.fused, data.comparison⟩
    | none => none

/-- All `detailed_data` rows, days in ascending order. -/
def step6_detailed_data (s : SystemData) : List DetailedRow :=
  ((sortedAsc s.days).map (detailedRowsForDay s)).flatten

/-- One row of `Summary_By_Day.csv`. -/
structure SummaryRow where
  day : ℚ
  num_images : ℕ
  average : ℚ
  standard_deviation : ℝ
  standard_error : ℝ
  error_margin : ℝ
  minimum : ℚ
  maximum : ℚ

/-- The `Summary_By_Day.csv` rows: the i-th row zips the i-th entries
of the parallel statistics lists (lines 595–605). -/
noncomputable def step6_summary_rows (r : StatisticalResults) : List SummaryRow :=
  (List.range r.days.length).map fun i =>
    ⟨r.days.getD i 0, r.num_images.getD i 0, r.averages.getD i 0,
     r.standard_deviations.getD i 0, r.standard_errors.getD i 0,
     r.error_margins.getD i 0, r.minimums.getD i 0, r.maximums.getD i 0⟩

/-- Embeds `step6_save_to_csv` (lines 556–612), modelled by the list of CSV
files it writes: `Detailed_Data.csv` only when there is at least one
detailed row, `Summary_By_Day.csv` only when the results exist and have
at least one day. -/
def step6_save_to_csv (s : SystemData) (results : Option StatisticalResults)
    (base_folder : String) : List String :=
  (if (step6_detailed_data s).isEmpty then [] else [base_folder ++ "/Detailed_Data.csv"]) ++
  (match results with
   | none => []
   | some r => if r.days.isEmpty then [] else [base_folder ++ "/Summary_By_Day.csv"])

/-- One per-day stanza of `Analysis_Summary.txt` (lines 644–654). -/
structure ReportStanza where
  day : ℚ
  num_images : ℕ
  average : ℚ
  minimum : ℚ
  maximum : ℚ
  standard_deviation : ℝ
  error_margin : ℝ
  ci_lo : ℝ
  ci_hi : ℝ

/-- The per-day stanzas of `step7_create_report`: written only when the
results exist and have at least one day. -/
noncomputable def step7_report_stanzas (results : Option StatisticalResults) :
    List ReportStanza :=
  match results with
  | none => []
  | some r =>
    if r.days.isEmpty then []
    else
      (List.range r.days.length).map fun i =>
        ⟨r.days.getD i 0, r.num_images.getD i 0, r.averages.getD i 0,
         r.minimums.getD i 0, r.maximums.getD i 0,
         r.standard_deviations.getD i 0, r.error_margins.getD i 0,
         (r.averages.getD i 0 : ℝ) - r.error_margins.getD i 0,
         (r.averages.getD i 0 : ℝ) + r.error_margins.getD i 0⟩

/-- Embeds `step7_create_report` (lines 618–678), modelled by the report file
name and its per-day stanzas. -/
noncomputable def step7_create_report (results : Option StatisticalResults)
    (base_folder : String) : String × List ReportStanza :=
  (base_folder ++ "/Analysis_Summary.txt", step7_report_stanzas results)

/-- The export phase of `execute` (lines 704–712): steps 5–7 run only
when step 4 returned a (non-`None`) result; modelled by the list of
files written. -/
noncomputable def run_exports (s : SystemData) (results : Option StatisticalResults)
    (base_folder : String) : List String :=
  match results with
  | none => []
  | some r =>
    step5_generate_graphs (some r) base_folder ++
    step6_save_to_csv s (some r) base_folder ++
    [(step7_create_report (some r) base_folder).1]

/-- The trend line of `show_final_summary` (lines 730–733): with more
than one aggregated day, the change is the last average minus the
first; the flag is `true` for "INCREASE" (change strictly positive) and
the magnitude is `abs(change)`. -/
def show_final_summary_trend (results : Option StatisticalResults) : Option (Bool × ℚ) :=
  match results with
  | none => none
  | some r =>
    if 1 < r.days.length then
      let change := r.averages.getLastD 0 - r.averages.headD 0
      some (decide (0 < change), |change|)
    else none

/-- A 1×1 all-black test image. -/
def testImg : Image := ⟨1, 1, fun _ _ => ⟨0, 0, 0⟩⟩

/-- A load oracle that fails on `bad.png` and yields `testImg` elsewhere. -/
def witLoad : String → Option Image := fun p => if p = "bad.png" then none else some testImg

/-- A registered single-day state whose first image fails to load. -/
def witState : SystemData :=
  ⟨"E", "C", [0], [(0, ["bad.png", "ok.png"])], [(0, [])], [(0, [])]⟩

/-- The end-to-end scenario state of the spec: experiment "Test",
culture "HepG2", day 0 with recorded percentages `[15, 25]` and day 1
with `[40]`. -/
def scenarioState : SystemData :=
  ⟨"Test", "HepG2", [0, 1],
   [(0, ["d0_1.png", "d0_2.png"]), (1, ["d1_1.png"])],
   [(0, [15, 25]), (1, [40])],
   [(0, []), (1, [])]⟩

/-- The expected aggregated statistics for `scenarioState`. -/
noncomputable def scenarioStats : StatisticalResults :=
  ⟨[0, 1], [20, 40], [Real.sqrt 50, 0], [Real.sqrt 50 / Real.sqrt 2, 0],
   [9.8, 0], [2, 1], [15, 40], [25, 40]⟩

/-- A state holding a single registered day with recorded values `vs`. -/
def oneDayState (day : ℚ) (vs : List ℚ) : SystemData :=
  ⟨"E", "C", [day], [(day, [])], [(day, vs)], [(day, [])]⟩

/-- The initial state: nothing registered. -/
def emptyState : SystemData := ⟨"", "", [], [], [], []⟩

/-- The `scenarioState` days registered in the opposite order. -/
def scenarioStatePermuted : SystemData :=
  ⟨"Test", "HepG2", [1, 0],
   [(0, ["d0_1.png", "d0_2.png"]), (1, ["d1_1.png"])],
   [(0, [15, 25]), (1, [40])],
   [(0, []), (1, [])]⟩

/-- The per-day statistics tuple exactly as the spec words it (§4.4):
mean `Σv/n`, sample standard deviation with the `n−1` denominator when
`n > 1` and `0` when `n = 1`, standard error `stdDev/√n`, error margin
`1.96 × standardError`, the count, and min/max over the values. -/
noncomputable def specDayStats (day : ℚ) (vs : List ℚ) : StatisticalResults :=
  ⟨[day],
   [vs.sum / vs.length],
   [if 1 < vs.length then
       Real.sqrt (((vs.map (fun v => (v - vs.sum / vs.length) ^ 2)).sum /
         ((vs.length : ℚ) - 1) : ℚ))
     else 0],
   [(if 1 < vs.length then
       Real.sqrt (((vs.map (fun v => (v - vs.sum / vs.length) ^ 2)).sum /
         ((vs.length : ℚ) - 1) : ℚ))
     else 0) / Real.sqrt (vs.length : ℝ)],
   [1.96 * ((if 1 < vs.length then
       Real.sqrt (((vs.map (fun v => (v - vs.sum / vs.length) ^ 2)).sum /
         ((vs.length : ℚ) - 1) : ℚ))
     else 0) / Real.sqrt (vs.length : ℝ))],
   [vs.length],
   [listMin vs],
   [listMax vs]⟩

/-! ## Dictionary and sorting lemmas -/

theorem lookupD_cons {α : Type} (e : ℚ × α) (rest : List (ℚ × α)) (k : ℚ) (d : α) :
    lookupD (e :: rest) k d = if e.1 = k then e.2 else lookupD rest k d := by
  by_cases h : e.1 = k
  · simp [lookupD, List.find?, h]
  · have hb : (e.1 == k) = false := beq_eq_false_iff_ne.mpr h
    simp [lookupD, List.find?, hb, h]

theorem lookupD_setEntry_self {α : Type} (m : List (ℚ × α)) (k : ℚ) (v : α) (d : α) :
    lookupD (setEntry m k v) k d = v := by
  induction m with
  | nil => simp [setEntry, lookupD]
  | cons e rest ih =>
    by_cases h : e.1 = k
    · simp [setEntry, h, lookupD_cons]
    · simp only [setEntry, beq_iff_eq, if_neg h]
      rw [lookupD_cons, if_neg h]
      exact ih

theorem lookupD_setEntry_ne {α : Type} (m : List (ℚ × α)) (k k' : ℚ) (v : α) (d : α)
    (hne : k' ≠ k) : lookupD (setEntry m k v) k' d = lookupD m k' d := by
  induction m with
  | nil =>
    have hb : (k == k') = false := beq_eq_false_iff_ne.mpr (fun hk => hne hk.symm)
    simp [setEntry, lookupD, List.find?, hb]
  | cons e rest ih =>
    by_cases h : e.1 = k
    · simp only [setEntry, beq_iff_eq, if_pos h]
      have he : e.1 ≠ k' := by rw [h]; exact fun hk => hne hk.symm
      rw [lookupD_cons, lookupD_cons, if_neg (fun hk => hne hk.symm), if_neg he]
    · simp only [setEntry, beq_iff_eq, if_neg h]
      rw [lookupD_cons, lookupD_cons]
      by_cases h' : e.1 = k'
      · simp [h']
      · simp only [if_neg h']
        exact ih

/-! ## Step-3 fold lemmas -/

theorem step3Fold_days (load : String → Option Image) (bf : String) (L : List ℚ) (st : SystemData) :
    (step3Fold load bf L st).days = st.days := by
  induction L generalizing st with
  | nil => rfl
  | cons day rest ih =>
    rw [step3Fold]
    exact ih _

theorem step3Fold_images (load : String → Option Image) (bf : String) (L : List ℚ)
    (st : SystemData) : (step3Fold load bf L st).images_per_day = st.images_per_day := by
  induction L generalizing st with
  | nil => rfl
  | cons day rest ih =>
    rw [step3Fold]
    exact ih _

theorem step3Fold_name (load : String → Option Image) (bf : String) (L : List ℚ)
    (st : SystemData) : (step3Fold load bf L st).experiment_name = st.experiment_name := by
  induction L generalizing st with
  | nil => rfl
  | cons day rest ih =>
    rw [step3Fold]
    exact ih _

theorem step3Fold_results_preserve (load : String → Option Image) (bf : String) (L : List ℚ)
    (st : SystemData) (day : ℚ) (hday : day ∉ L) :
    lookupD (step3Fold load bf L st).results_per_day day [] =
      lookupD st.results_per_day day [] := by
  induction L generalizing st with
  | nil => rfl
  | cons d rest ih =>
    rw [step3Fold]
    have hne : day ≠ d := fun h => hday (h ▸ List.mem_cons_self d rest)
    rw [ih _ (fun h => hday (List.mem_cons_of_mem d h))]
    exact lookupD_setEntry_ne _ _ _ _ _ hne

theorem step3Fold_processed_preserve (load : String → Option Image) (bf : String) (L : List ℚ)
    (st : SystemData) (day : ℚ) (hday : day ∉ L) :
    lookupD (step3Fold load bf L st).processed_paths day [] =
      lookupD st.processed_paths day [] := by
  induction L generalizing st with
  | nil => rfl
  | cons d rest ih =>
    rw [step3Fold]
    have hne : day ≠ d := fun h => hday (h ▸ List.mem_cons_self d rest)
    rw [ih _ (fun h => hday (List.mem_cons_of_mem d h))]
    exact lookupD_setEntry_ne _ _ _ _ _ hne

theorem step3Fold_results_lookup (load : String → Option Image) (bf : String) (L : List ℚ)
    (st : SystemData) (day : ℚ) (hday : day ∈ L) :
    lookupD (step3Fold load bf L st).results_per_day day [] =
      (processDay load day (bf ++ "/Day_" ++ toString day)
        (lookupD st.images_per_day day []) 1).1 := by
  induction L generalizing st with
  | nil => cases hday
  | cons d rest ih =>
    rw [step3Fold]
    by_cases hmem : day ∈ rest
    · exact ih _ hmem
    · have hd : day = d := by
        rcases List.mem_cons.mp hday with h | h
        · exact h
        · exact absurd h hmem
      subst hd
      rw [step3Fold_results_preserve load bf rest _ day hmem]
      exact lookupD_setEntry_self _ _ _ _

theorem step3Fold_processed_lookup (load : String → Option Image) (bf : String) (L : List ℚ)
    (st : SystemData) (day : ℚ) (hday : day ∈ L) :
    lookupD (step3Fold load bf L st).processed_paths day [] =
      (processDay load day (bf ++ "/Day_" ++ toString day)
        (lookupD st.images_per_day day []) 1).2 := by
  induction L generalizing st with
  | nil => cases hday
  | cons d rest ih =>
    rw [step3Fold]
    by_cases hmem : day ∈ rest
    · exact ih _ hmem
    · have hd : day = d := by
        rcases List.mem_cons.mp hday with h | h
        · exact h
        · exact absurd h hmem
      subst hd
      rw [step3Fold_processed_preserve load bf rest _ day hmem]
      exact lookupD_setEntry_self _ _ _ _

/-! ## Per-day processing lemmas -/

theorem processDay_length (load : String → Option Image) (day : ℚ) (df : String)
    (paths : List String) : ∀ idx, (processDay load day df paths idx).1.length = paths.length := by
  induction paths with
  | nil => intro idx; rfl
  | cons p rest ih =>
    intro idx
    rw [processDay]
    cases hl : load p <;> simp [hl, ih]

theorem processDay_getD (load : String → Option Image) (day : ℚ) (df : String)
    (paths : List String) : ∀ idx i, i < paths.length →
      (processDay load day df paths idx).1.getD i 0 =
        (match load (paths.getD i "") with
         | none => 0
         | some img => (calculate_lipid_percentage img).1) := by
  induction paths with
  | nil => intro idx i h; cases h
  | cons p rest ih =>
    intro idx i hi
    rw [processDay]
    cases i with
    | zero => cases hl : load p <;> simp [hl]
    | succ n =>
      have hn : n < rest.length := by simpa using hi
      cases hl : load p <;> simp [hl] <;> simpa using ih (idx + 1) n hn

theorem lookupIdx_cons (e : ℕ × ProcessedRecord) (recs : List (ℕ × ProcessedRecord)) (k : ℕ) :
    lookupIdx (e :: recs) k = if e.1 = k then some e.2 else lookupIdx recs k := by
  by_cases h : e.1 = k
  · simp [lookupIdx, List.find?, h]
  · have hb : (e.1 == k) = false := beq_eq_false_iff_ne.mpr h
    simp [lookupIdx, List.find?, hb, h]

theorem processDay_keys_ge (load : String → Option Image) (day : ℚ) (df : String)
    (paths : List String) : ∀ idx e, e ∈ (processDay load day df paths idx).2 → idx ≤ e.1 := by
  induction paths with
  | nil => intro idx e h; cases h
  | cons p rest ih =>
    intro idx e he
    rw [processDay] at he
    cases hl : load p <;> rw [hl] at he
    · exact le_trans (Nat.le_succ idx) (ih (idx + 1) e he)
    · simp only [] at he
      rcases List.mem_cons.mp he with h | h
      · subst h; exact le_refl idx
      · exact le_trans (Nat.le_succ idx) (ih (idx + 1) e h)

theorem lookupIdx_none_of_lt (recs : List (ℕ × ProcessedRecord)) (k lb : ℕ)
    (hlb : ∀ e ∈ recs, lb ≤ e.1) (hk : k < lb) : lookupIdx recs k = none := by
  induction recs with
  | nil => rfl
  | cons e rest ih =>
    rw [lookupIdx_cons]
    have h1 := hlb e (List.mem_cons_self e rest)
    rw [if_neg (by omega)]
    exact ih (fun x hx => hlb x (List.mem_cons_of_mem e hx))

theorem processDay_lookupIdx_none (load : String → Option Image) (day : ℚ) (df : String)
    (paths : List String) : ∀ idx i, i < paths.length → load (paths.getD i "") = none →
      lookupIdx (processDay load day df paths idx).2 (idx + i) = none := by
  induction paths with
  | nil => intro idx i h; cases h
  | cons p rest ih =>
    intro idx i hi hload
    rw [processDay]
    cases i with
    | zero =>
      simp only [List.getD_cons_zero] at hload
      rw [hload]
      exact lookupIdx_none_of_lt _ _ (idx + 1)
        (processDay_keys_ge load day df rest (idx + 1)) (by omega)
    | succ n =>
      have hn : n < rest.length := by simpa using hi
      have hload' : load (rest.getD n "") = none := by simpa using hload
      have key : idx + (n + 1) = (idx + 1) + n := by omega
      cases hl : load p
      · simp only []
        rw [key]
        exact ih (idx + 1) n hn hload'
      · simp only []
        rw [lookupIdx_cons, if_neg (by omega), key]
        exact ih (idx + 1) n hn hload'

theorem processDay_lookupIdx_isSome (load : String → Option Image) (day : ℚ) (df : String)
    (paths : List String) : ∀ idx i, i < paths.length → (load (paths.getD i "")).isSome = true →
      (lookupIdx (processDay load day df paths idx).2 (idx + i)).isSome = true := by
  induction paths with
  | nil => intro idx i h; cases h
  | cons p rest ih =>
    intro idx i hi hload
    rw [processDay]
    cases i with
    | zero =>
      simp only [List.getD_cons_zero] at hload
      rcases Option.isSome_iff_exists.mp hload with ⟨img, himg⟩
      rw [himg]
      simp [lookupIdx_cons]
    | succ n =>
      have hn : n < rest.length := by simpa using hi
      have hload' : (load (rest.getD n "")).isSome = true := by simpa using hload
      have key : idx + (n + 1) = (idx + 1) + n := by omega
      cases hl : load p
      · simp only []
        rw [key]
        exact ih (idx + 1) n hn hload'
      · simp only []
        rw [lookupIdx_cons, if_neg (by omega), key]
        exact ih (idx + 1) n hn hload'

theorem enumerate1_keys_ge {α : Type} (l : List α) :
    ∀ s e, e ∈ enumerate1 l s → s ≤ e.1 := by
  induction l with
  | nil => intro s e h; cases h
  | cons a rest ih =>
    intro s e he
    rcases List.mem_cons.mp he with h | h
    · subst h; exact le_refl s
    · exact le_trans (Nat.le_succ s) (ih (s + 1) e h)

theorem filterMap_match_cons_ge (g : ℕ × String → ProcessedRecord → DetailedRow)
    (idx : ℕ) (rec : ProcessedRecord) (recs : List (ℕ × ProcessedRecord))
    (l : List (ℕ × String)) (hge : ∀ e ∈ l, idx < e.1) :
    l.filterMap (fun e =>
        match (if idx = e.1 then some rec else lookupIdx recs e.1) with
        | some data => some (g e data)
        | none => none)
      = l.filterMap (fun e =>
          match lookupIdx recs e.1 with
          | some data => some (g e data)
          | none => none) := by
  apply List.filterMap_congr
  intro e he
  rw [if_neg (by have := hge e he; omega)]

theorem processDay_detailed_count (load : String → Option Image) (day : ℚ) (df : String)
    (g : ℕ × String → ProcessedRecord → DetailedRow) (paths : List String) :
    ∀ idx,
      ((enumerate1 paths idx).filterMap (fun e =>
          match lookupIdx (processDay load day df paths idx).2 e.1 with
          | some data => some (g e data)
          | none => none)).length
        = (paths.filter (fun p => (load p).isSome)).length := by
  induction paths with
  | nil => intro idx; rfl
  | cons p rest ih =>
    intro idx
    rw [processDay, enumerate1]
    cases hl : load p
    · simp only [List.filterMap_cons]
      rw [lookupIdx_none_of_lt _ _ (idx + 1)
        (processDay_keys_ge load day df rest (idx + 1)) (by omega)]
      simp only [List.filter_cons, hl, Option.isSome_none, Bool.false_eq_true, if_false]
      exact ih (idx + 1)
    · simp only [List.filterMap_cons, lookupIdx_cons, if_pos rfl, eq_self_iff_true, if_true]
      simp only [List.filter_cons, hl, Option.isSome_some, eq_self_iff_true, if_true,
        List.length_cons]
      rw [filterMap_match_cons_ge g idx _ _ _
        (fun e he => by have := enumerate1_keys_ge rest (idx + 1) e he; omega), ih (idx + 1)]

theorem step3_def (load : String → Option Image) (s : SystemData) :
    step3_process_images load s =
      step3Fold load ("Results_" ++ (s.experiment_name.replace " " "_"))
        (sortedAsc s.days) s := rfl

/-! ## Claims -/

/-- **C9**: registering an already-present day identifier is rejected —
`registerDay` returns `false` and leaves the whole state (day list,
image map, result map) unchanged — and no operation of the pipeline
removes a day: both `registerDay` and `step3_process_images` preserve
membership in the day list. -/
theorem C9_duplicate_guard :
    (∀ (s : SystemData) (day : ℚ) (ps : List String), day ∈ s.days →
        registerDay s day ps = (false, s)) ∧
    (∀ (s : SystemData) (day d : ℚ) (ps : List String), d ∈ s.days →
        d ∈ (registerDay s day ps).2.days) ∧
    (∀ (load : String → Option Image) (s : SystemData) (d : ℚ), d ∈ s.days →
        d ∈ (step3_process_images load s).days) := by
  refine ⟨?_, ?_, ?_⟩
  · intro s day ps h
    simp [registerDay, h]
  · intro s day d ps h
    unfold registerDay
    by_cases h1 : day ∈ s.days
    · simp [h1, h]
    · by_cases h2 : ps.isEmpty <;> simp [h1, h2, h, List.mem_append]
  · intro load s d h
    rw [step3_def, step3Fold_days]
    exact h

/-- Witness for C9 at a concrete state: day 0 is registered in
`witState` and re-registering it is rejected without any change. -/
theorem C9_witness :
    (0 : ℚ) ∈ witState.days ∧ registerDay witState 0 ["x.png"] = (false, witState) :=
  ⟨by decide, C9_duplicate_guard.1 witState 0 ["x.png"] (by decide)⟩

/-- **C2**: after `step3_process_images`, every registered day's
results list has exactly the same length as its image-path list, with
positional correspondence: the i-th result is the sentinel `0` when the
i-th image fails to load, and the computed lipid percentage when it
loads. -/
theorem C2_index_alignment (load : String → Option Image) (s : SystemData) (day : ℚ)
    (hday : day ∈ s.days) :
    (lookupD (step3_process_images load s).results_per_day day []).length =
      (lookupD (step3_process_images load s).images_per_day day []).length ∧
    ∀ i, i < (lookupD (step3_process_images load s).images_per_day day []).length →
      (load ((lookupD (step3_process_images load s).images_per_day day []).getD i "") = none →
        (lookupD (step3_process_images load s).results_per_day day []).getD i 0 = 0) ∧
      (∀ img,
        load ((lookupD (step3_process_images load s).images_per_day day []).getD i "") = some img →
        (lookupD (step3_process_images load s).results_per_day day []).getD i 0 =
          (calculate_lipid_percentage img).1) := by
  have hmem : day ∈ sortedAsc s.days :=
    (List.perm_insertionSort (· ≤ ·) s.days).mem_iff.mpr hday
  rw [step3_def, step3Fold_images, step3Fold_results_lookup _ _ _ _ _ hmem]
  refine ⟨processDay_length _ _ _ _ _, ?_⟩
  intro i hi
  constructor
  · intro hnone
    rw [processDay_getD _ _ _ _ 1 i hi, hnone]
  · intro img himg
    rw [processDay_getD _ _ _ _ 1 i hi, himg]

/-- Witness for C2 at a concrete state and load oracle: day 0 of
`witState` has two images, the first of which fails to load. -/
theorem C2_witness :
    (0 : ℚ) ∈ witState.days ∧
    ((lookupD (step3_process_images witLoad witState).results_per_day 0 []).length =
      (lookupD (step3_process_images witLoad witState).images_per_day 0 []).length ∧
    ∀ i, i < (lookupD (step3_process_images witLoad witState).images_per_day 0 []).length →
      (witLoad ((lookupD (step3_process_images witLoad witState).images_per_day 0 []).getD i "") =
          none →
        (lookupD (step3_process_images witLoad witState).results_per_day 0 []).getD i 0 = 0) ∧
      (∀ img,
        witLoad ((lookupD (step3_process_images witLoad witState).images_per_day 0 []).getD i "") =
          some img →
        (lookupD (step3_process_images witLoad witState).results_per_day 0 []).getD i 0 =
          (calculate_lipid_percentage img).1)) :=
  ⟨by decide, C2_index_alignment witLoad witState 0 (by decide)⟩

theorem length_filter_lt_of_mem_not {α : Type} (p : α → Bool) (l : List α) (x : α)
    (hx : x ∈ l) (hpx : p x = false) : (l.filter p).length < l.length := by
  induction l with
  | nil => cases hx
  | cons a rest ih =>
    rcases List.mem_cons.mp hx with h | h
    · subst h
      rw [List.filter_cons, if_neg (by simp [hpx])]
      have := List.length_filter_le p rest
      simp only [List.length_cons]
      omega
    · rw [List.filter_cons]
      by_cases hpa : p a = true
      · rw [if_pos hpa]
        have := ih h
        simp only [List.length_cons]
        omega
      · have hpa' : p a = false := by simpa using hpa
        rw [if_neg (by simp [hpa'])]
        have := ih h
        simp only [List.length_cons]
        omega

/-- **C10**: a failed image load leaves no processed-paths entry at its
(1-based) index, the detailed-CSV rows for a day count exactly the
successfully loaded images, and when some load failed that count is
strictly below the length of the day's results list (which the
statistics use and which includes the sentinel 0). -/
theorem C10_detailed_rows_skip_failures (load : String → Option Image) (s : SystemData)
    (day : ℚ) (hday : day ∈ s.days) :
    (∀ i, i < (lookupD (step3_process_images load s).images_per_day day []).length →
      load ((lookupD (step3_process_images load s).images_per_day day []).getD i "") = none →
      lookupIdx (lookupD (step3_process_images load s).processed_paths day []) (1 + i) = none) ∧
    (detailedRowsForDay (step3_process_images load s) day).length =
      ((lookupD (step3_process_images load s).images_per_day day []).filter
        (fun p => (load p).isSome)).length ∧
    ((∃ i, i < (lookupD (step3_process_images load s).images_per_day day []).length ∧
        load ((lookupD (step3_process_images load s).images_per_day day []).getD i "") = none) →
      (detailedRowsForDay (step3_process_images load s) day).length <
        (lookupD (step3_process_images load s).results_per_day day []).length) := by
  have hmem : day ∈ sortedAsc s.days :=
    (List.perm_insertionSort (· ≤ ·) s.days).mem_iff.mpr hday
  unfold detailedRowsForDay
  rw [step3_def, step3Fold_images, step3Fold_processed_lookup _ _ _ _ _ hmem,
    step3Fold_results_lookup _ _ _ _ _ hmem]
  refine ⟨?_, ?_, ?_⟩
  · intro i hi hnone
    exact processDay_lookupIdx_none load day _ _ 1 i hi hnone
  · exact processDay_detailed_count load day _ _ _ 1
  · rintro ⟨i, hi, hnone⟩
    rw [processDay_detailed_count load day _ _ _ 1, processDay_length]
    have hmem' : (lookupD s.images_per_day day []).getD i "" ∈ lookupD s.images_per_day day [] := by
      rw [List.getD_eq_getElem _ _ hi]
      exact List.getElem_mem _
    exact length_filter_lt_of_mem_not _ _ _ hmem' (by rw [hnone]; rfl)

/-- Witness for C10: in `witState` with `witLoad`, image 1 of day 0
fails to load, so the detailed rows fall short of the statistics count. -/
theorem C10_witness :
    (0 : ℚ) ∈ witState.days ∧
    ((∀ i, i < (lookupD (step3_process_images witLoad witState).images_per_day 0 []).length →
      witLoad ((lookupD (step3_process_images witLoad witState).images_per_day 0 []).getD i "") =
        none →
      lookupIdx (lookupD (step3_process_images witLoad witState).processed_paths 0 []) (1 + i) =
        none) ∧
    (detailedRowsForDay (step3_process_images witLoad witState) 0).length =
      ((lookupD (step3_process_images witLoad witState).images_per_day 0 []).filter
        (fun p => (witLoad p).isSome)).length ∧
    ((∃ i, i < (lookupD (step3_process_images witLoad witState).images_per_day 0 []).length ∧
        witLoad ((lookupD (step3_process_images witLoad witState).images_per_day 0 []).getD i "") =
          none) →
      (detailedRowsForDay (step3_process_images witLoad witState) 0).length <
        (lookupD (step3_process_images witLoad witState).results_per_day 0 []).length)) :=
  ⟨by decide, C10_detailed_rows_skip_failures witLoad witState 0 (by decide)⟩

/-! ## Segmentation lemmas -/

theorem countNonzero_le (h w : ℕ) (m : ℕ → ℕ → Bool) : countNonzero h w m ≤ h * w := by
  unfold countNonzero
  calc ∑ i ∈ Finset.range h, ∑ j ∈ Finset.range w, (if m i j then 1 else 0)
      ≤ ∑ _i ∈ Finset.range h, ∑ _j ∈ Finset.range w, 1 := by
        apply Finset.sum_le_sum
        intro i _
        apply Finset.sum_le_sum
        intro j _
        split <;> omega
    _ = h * w := by simp [Finset.sum_const, Finset.card_range, mul_comm]

theorem countNonzero_mono (h w : ℕ) (m₁ m₂ : ℕ → ℕ → Bool)
    (hle : ∀ i j, i < h → j < w → m₁ i j = true → m₂ i j = true) :
    countNonzero h w m₁ ≤ countNonzero h w m₂ := by
  unfold countNonzero
  apply Finset.sum_le_sum
  intro i hi
  apply Finset.sum_le_sum
  intro j hj
  by_cases hm : m₁ i j = true
  · rw [if_pos hm, if_pos (hle i j (Finset.mem_range.mp hi) (Finset.mem_range.mp hj) hm)]
  · rw [if_neg hm]
    omega

theorem kernelEllipse_anchor : kernelEllipse 14 14 = true := by decide

theorem mask_le_dilate30 (h w : ℕ) (m : ℕ → ℕ → Bool) (i j : ℕ)
    (hi : i < h) (hj : j < w) (hm : m i j = true) : dilate30 h w m i j = true := by
  unfold dilate30
  rw [List.any_eq_true]
  refine ⟨14, List.mem_range.mpr (by omega), ?_⟩
  rw [List.any_eq_true]
  refine ⟨14, List.mem_range.mpr (by omega), ?_⟩
  simp only [kernelEllipse_anchor, Bool.true_and, Bool.and_eq_true, decide_eq_true_eq]
  have ha : ((i : ℤ) + ((14 : ℕ) : ℤ) - 14).toNat = i := by omega
  have hb : ((j : ℤ) + ((14 : ℕ) : ℤ) - 14).toNat = j := by omega
  refine ⟨⟨⟨⟨by omega, by omega⟩, by omega⟩, by omega⟩, ?_⟩
  rw [ha, hb]
  exact hm

theorem maskPercentage_nonneg (h w : ℕ) (m : ℕ → ℕ → Bool) : 0 ≤ maskPercentage h w m := by
  unfold maskPercentage
  positivity

theorem maskPercentage_le_100 (h w : ℕ) (m : ℕ → ℕ → Bool) (hpos : 0 < h * w) :
    maskPercentage h w m ≤ 100 := by
  unfold maskPercentage
  have hq : (0 : ℚ) < ((h * w : ℕ) : ℚ) := by exact_mod_cast hpos
  have hle : (countNonzero h w m : ℚ) ≤ ((h * w : ℕ) : ℚ) := by
    exact_mod_cast countNonzero_le h w m
  have h1 : (countNonzero h w m : ℚ) / ((h * w : ℕ) : ℚ) ≤ 1 := (div_le_one hq).mpr hle
  calc (countNonzero h w m : ℚ) / ((h * w : ℕ) : ℚ) * 100
      ≤ 1 * 100 := mul_le_mul_of_nonneg_right h1 (by norm_num)
    _ = 100 := one_mul 100

theorem maskPercentage_mono (h w : ℕ) (m₁ m₂ : ℕ → ℕ → Bool)
    (hle : ∀ i j, i < h → j < w → m₁ i j = true → m₂ i j = true) :
    maskPercentage h w m₁ ≤ maskPercentage h w m₂ := by
  unfold maskPercentage
  rcases Nat.eq_zero_or_pos (h * w) with h0 | hpos
  · rw [h0]
    norm_num
  · have hq : (0 : ℚ) < ((h * w : ℕ) : ℚ) := by exact_mod_cast hpos
    have hc : (countNonzero h w m₁ : ℚ) ≤ (countNonzero h w m₂ : ℚ) := by
      exact_mod_cast countNonzero_mono h w m₁ m₂ hle
    apply mul_le_mul_of_nonneg_right _ (by norm_num : (0:ℚ) ≤ 100)
    exact (div_le_div_iff_of_pos_right hq).mpr hc

/-- **C3**: for every valid non-null image buffer, the segmenter
returns the dilated-mask nonzero count over the total pixel count times
100, a value in `[0, 100]`, and a mask of the input's height and width;
that mask is the HSV threshold mask dilated once with the 30×30
elliptical structuring element. -/
theorem C3_segmenter_contract (img : Image) (hh : 0 < img.h) (hw : 0 < img.w) :
    (calculate_lipid_percentage img).1 =
      (countNonzero img.h img.w (dilate30 img.h img.w (thresholdMask img)) : ℚ) /
        ((img.h * img.w : ℕ) : ℚ) * 100 ∧
    0 ≤ (calculate_lipid_percentage img).1 ∧
    (calculate_lipid_percentage img).1 ≤ 100 ∧
    (calculate_lipid_percentage img).2.h = img.h ∧
    (calculate_lipid_percentage img).2.w = img.w ∧
    (calculate_lipid_percentage img).2.m = dilate30 img.h img.w (thresholdMask img) :=
  ⟨rfl, maskPercentage_nonneg _ _ _,
   maskPercentage_le_100 _ _ _ (Nat.mul_pos hh hw), rfl, rfl, rfl⟩

/-- Witness for C3 at the 1×1 black test image. -/
theorem C3_witness :
    0 < testImg.h ∧ 0 < testImg.w ∧
    ((calculate_lipid_percentage testImg).1 =
      (countNonzero testImg.h testImg.w
          (dilate30 testImg.h testImg.w (thresholdMask testImg)) : ℚ) /
        ((testImg.h * testImg.w : ℕ) : ℚ) * 100 ∧
    0 ≤ (calculate_lipid_percentage testImg).1 ∧
    (calculate_lipid_percentage testImg).1 ≤ 100 ∧
    (calculate_lipid_percentage testImg).2.h = testImg.h ∧
    (calculate_lipid_percentage testImg).2.w = testImg.w ∧
    (calculate_lipid_percentage testImg).2.m =
      dilate30 testImg.h testImg.w (thresholdMask testImg)) :=
  ⟨by decide, by decide, C3_segmenter_contract testImg (by decide) (by decide)⟩

/-- **C4**: the percentage computed from the dilated mask is at least
the percentage the undilated threshold mask would give, for every input
image: dilating with the 30×30 elliptical element never clears a set
pixel. -/
theorem C4_dilation_monotone (img : Image) :
    maskPercentage img.h img.w (thresholdMask img) ≤ (calculate_lipid_percentage img).1 :=
  maskPercentage_mono img.h img.w _ _
    (fun i j hi hj hm => mask_le_dilate30 img.h img.w _ i j hi hj hm)

/-! ## Compositor lemmas -/

theorem rhe_natCast (n : ℕ) : rhe (n : ℚ) = n := by
  unfold rhe
  have hf : ⌊(n : ℚ)⌋ = (n : ℤ) := Int.floor_natCast n
  simp only [hf]
  rw [if_pos (by push_cast; norm_num)]

theorem satCast_natCast (n : ℕ) (hn : n ≤ 255) : satCast (n : ℚ) = n := by
  unfold satCast
  rw [rhe_natCast, min_eq_right (by exact_mod_cast hn), max_eq_right (by positivity)]
  exact Int.toNat_natCast n

theorem Pixel.ext' {p q : Pixel} (hb : p.b = q.b) (hg : p.g = q.g) (hr : p.r = q.r) : p = q := by
  cases p; cases q; simp_all

theorem addWeightedCh_id (c : ℕ) (hc : c ≤ 255) : addWeightedCh 1 c (1/2) 0 0 = c := by
  unfold addWeightedCh
  rw [show (1 : ℚ) * c + 1/2 * ((0 : ℕ) : ℚ) + 0 = (c : ℚ) by push_cast; ring]
  exact satCast_natCast c hc

/-- **C7**: in the fused overlay, every pixel outside the mask equals
the original pixel, and every pixel inside the mask is the original
plus one half of the solid magenta colour, channel-wise, rounded and
saturated (the green channel, zero in magenta, stays unchanged). -/
theorem C7_fused_overlay (img : Image) (mask : Mask) (hv : img.valid) (i j : ℕ) :
    (mask.m i j = false → (fusedImage img mask).pix i j = img.pix i j) ∧
    (mask.m i j = true →
      (fusedImage img mask).pix i j =
        ⟨satCast (((img.pix i j).b : ℚ) + 255 / 2),
         (img.pix i j).g,
         satCast (((img.pix i j).r : ℚ) + 255 / 2)⟩) := by
  obtain ⟨hb, hg, hr⟩ := hv i j
  constructor
  · intro hm
    show addWeightedPx 1 (img.pix i j) (1/2) (magentaHighlight mask i j) 0 = img.pix i j
    unfold magentaHighlight
    rw [hm]
    simp only [Bool.false_eq_true, if_false]
    unfold addWeightedPx
    exact Pixel.ext' (addWeightedCh_id _ hb) (addWeightedCh_id _ hg) (addWeightedCh_id _ hr)
  · intro hm
    show addWeightedPx 1 (img.pix i j) (1/2) (magentaHighlight mask i j) 0 =
      ⟨satCast (((img.pix i j).b : ℚ) + 255 / 2), (img.pix i j).g,
       satCast (((img.pix i j).r : ℚ) + 255 / 2)⟩
    unfold magentaHighlight
    rw [hm]
    simp only [if_true]
    unfold addWeightedPx magentaPx
    refine Pixel.ext' ?_ ?_ ?_
    · show addWeightedCh 1 (img.pix i j).b (1/2) 255 0 = satCast (((img.pix i j).b : ℚ) + 255 / 2)
      unfold addWeightedCh
      congr 1
      push_cast
      ring
    · exact addWeightedCh_id _ hg
    · show addWeightedCh 1 (img.pix i j).r (1/2) 255 0 = satCast (((img.pix i j).r : ℚ) + 255 / 2)
      unfold addWeightedCh
      congr 1
      push_cast
      ring

/-- Witness for C7: the 1×1 black test image with an all-true mask. -/
theorem C7_witness :
    testImg.valid ∧
    (((Mask.mk 1 1 (fun _ _ => (true : Bool))).m 0 0 = false →
        (fusedImage testImg (Mask.mk 1 1 (fun _ _ => (true : Bool)))).pix 0 0 = testImg.pix 0 0) ∧
     ((Mask.mk 1 1 (fun _ _ => (true : Bool))).m 0 0 = true →
        (fusedImage testImg (Mask.mk 1 1 (fun _ _ => (true : Bool)))).pix 0 0 =
          ⟨satCast (((testImg.pix 0 0).b : ℚ) + 255 / 2),
           (testImg.pix 0 0).g,
           satCast (((testImg.pix 0 0).r : ℚ) + 255 / 2)⟩)) :=
  have hv : testImg.valid := fun _ _ => ⟨Nat.zero_le _, Nat.zero_le _, Nat.zero_le _⟩
  ⟨hv, C7_fused_overlay testImg (Mask.mk 1 1 (fun _ _ => (true : Bool))) hv 0 0⟩

/-! ## Statistics lemmas -/

theorem foldl_min_le_init (l : List ℚ) : ∀ a : ℚ, l.foldl min a ≤ a := by
  induction l with
  | nil => intro a; exact le_refl a
  | cons b t ih =>
    intro a
    exact le_trans (ih (min a b)) (min_le_left a b)

theorem foldl_min_le_mem (l : List ℚ) : ∀ a v, v ∈ l → l.foldl min a ≤ v := by
  induction l with
  | nil => intro a v hv; cases hv
  | cons b t ih =>
    intro a v hv
    rcases List.mem_cons.mp hv with h | h
    · subst h
      exact le_trans (foldl_min_le_init t (min a v)) (min_le_right a v)
    · exact ih (min a b) v h

theorem foldl_min_mem (l : List ℚ) : ∀ a : ℚ, l.foldl min a = a ∨ l.foldl min a ∈ l := by
  induction l with
  | nil => intro a; exact Or.inl rfl
  | cons b t ih =>
    intro a
    rcases ih (min a b) with h | h
    · rcases min_choice a b with hm | hm
      · exact Or.inl (by rw [List.foldl_cons, h, hm])
      · exact Or.inr (by rw [List.foldl_cons, h, hm]; exact List.mem_cons_self b t)
    · exact Or.inr (List.mem_cons_of_mem b h)

theorem init_le_foldl_max (l : List ℚ) : ∀ a : ℚ, a ≤ l.foldl max a := by
  induction l with
  | nil => intro a; exact le_refl a
  | cons b t ih =>
    intro a
    exact le_trans (le_max_left a b) (ih (max a b))

theorem mem_le_foldl_max (l : List ℚ) : ∀ a v, v ∈ l → v ≤ l.foldl max a := by
  induction l with
  | nil => intro a v hv; cases hv
  | cons b t ih =>
    intro a v hv
    rcases List.mem_cons.mp hv with h | h
    · subst h
      exact le_trans (le_max_right a v) (init_le_foldl_max t (max a v))
    · exact ih (max a b) v h

theorem foldl_max_mem (l : List ℚ) : ∀ a : ℚ, l.foldl max a = a ∨ l.foldl max a ∈ l := by
  induction l with
  | nil => intro a; exact Or.inl rfl
  | cons b t ih =>
    intro a
    rcases ih (max a b) with h | h
    · rcases max_choice a b with hm | hm
      · exact Or.inl (by rw [List.foldl_cons, h, hm])
      · exact Or.inr (by rw [List.foldl_cons, h, hm]; exact List.mem_cons_self b t)
    · exact Or.inr (List.mem_cons_of_mem b h)

theorem listMin_mem (vs : List ℚ) (h : vs ≠ []) : listMin vs ∈ vs := by
  cases vs with
  | nil => exact absurd rfl h
  | cons a t =>
    rcases foldl_min_mem t a with h1 | h1
    · rw [listMin, h1]; exact List.mem_cons_self a t
    · rw [listMin]; exact List.mem_cons_of_mem a h1

theorem listMin_le (vs : List ℚ) (v : ℚ) (hv : v ∈ vs) : listMin vs ≤ v := by
  cases vs with
  | nil => cases hv
  | cons a t =>
    rcases List.mem_cons.mp hv with h | h
    · subst h; exact foldl_min_le_init t v
    · exact foldl_min_le_mem t a v h

theorem listMax_mem (vs : List ℚ) (h : vs ≠ []) : listMax vs ∈ vs := by
  cases vs with
  | nil => exact absurd rfl h
  | cons a t =>
    rcases foldl_max_mem t a with h1 | h1
    · rw [listMax, h1]; exact List.mem_cons_self a t
    · rw [listMax]; exact List.mem_cons_of_mem a h1

theorem le_listMax (vs : List ℚ) (v : ℚ) (hv : v ∈ vs) : v ≤ listMax vs := by
  cases vs with
  | nil => cases hv
  | cons a t =>
    rcases List.mem_cons.mp hv with h | h
    · subst h; exact init_le_foldl_max t v
    · exact mem_le_foldl_max t a v h

theorem step4_oneDay (day : ℚ) (vs : List ℚ) (hvs : vs ≠ []) :
    step4_statistical_analysis (oneDayState day vs) = some (specDayStats day vs) := by
  have hne : vs.isEmpty = false := by
    cases vs
    · exact absurd rfl hvs
    · rfl
  have hlook : lookupD [(day, vs)] day ([] : List ℚ) = vs := by
    rw [lookupD_cons]
    simp
  unfold step4_statistical_analysis oneDayState specDayStats
  simp [sortedAsc, List.insertionSort, List.orderedInsert, List.filter, hlook, hne,
    npMean, sampleVariance, dayStdDev, dayStdError, dayErrorMargin]

/-- **C1**: for a day with nonempty recorded values the statistical
analysis produces exactly the spec's formulas — mean `Σv/n`, sample
standard deviation (`n−1` denominator for `n > 1`, `0` for `n = 1`),
standard error `stdDev/√n`, error margin `1.96 × stdError`, and true
min/max over the values; in particular `[10, 20, 30]` yields mean 20,
stdDev 10, stdError `10/√3`, errorMargin ≈ 11.32, min 10, max 30, and a
single value `x` yields stdDev = stdError = errorMargin = 0 and
min = max = mean = x. -/
theorem getD_map_eq {α β : Type} (f : α → β) (l : List α) (i : ℕ) (hi : i < l.length)
    (d : α) (dB : β) : (l.map f).getD i dB = f (l.getD i d) := by
  rw [List.getD_eq_getElem _ dB (by simpa using hi), List.getElem_map,
    List.getD_eq_getElem _ d hi]

theorem C1_day_statistics :
    (∀ (s : SystemData) (r : StatisticalResults), step4_statistical_analysis s = some r →
      ∀ i, i < r.days.length →
        lookupD s.results_per_day (r.days.getD i 0) [] ≠ [] ∧
        r.averages.getD i 0 = npMean (lookupD s.results_per_day (r.days.getD i 0) []) ∧
        r.standard_deviations.getD i 0 =
          dayStdDev (lookupD s.results_per_day (r.days.getD i 0) []) ∧
        r.standard_errors.getD i 0 =
          dayStdError (lookupD s.results_per_day (r.days.getD i 0) []) ∧
        r.error_margins.getD i 0 =
          dayErrorMargin (lookupD s.results_per_day (r.days.getD i 0) []) ∧
        r.num_images.getD i 0 = (lookupD s.results_per_day (r.days.getD i 0) []).length ∧
        r.minimums.getD i 0 = listMin (lookupD s.results_per_day (r.days.getD i 0) []) ∧
        r.maximums.getD i 0 = listMax (lookupD s.results_per_day (r.days.getD i 0) [])) ∧
    (∀ vs : List ℚ,
      npMean vs = vs.sum / vs.length ∧
      (1 < vs.length → dayStdDev vs =
        Real.sqrt (((vs.map (fun v => (v - vs.sum / vs.length) ^ 2)).sum /
          ((vs.length : ℚ) - 1) : ℚ))) ∧
      (vs.length = 1 → dayStdDev vs = 0) ∧
      dayStdError vs = dayStdDev vs / Real.sqrt (vs.length : ℝ) ∧
      dayErrorMargin vs = 1.96 * dayStdError vs) ∧
    (∀ (day : ℚ) (vs : List ℚ), vs ≠ [] →
      step4_statistical_analysis (oneDayState day vs) = some (specDayStats day vs) ∧
      listMin vs ∈ vs ∧ listMax vs ∈ vs ∧
      ∀ v ∈ vs, listMin vs ≤ v ∧ v ≤ listMax vs) ∧
    (npMean [10, 20, 30] = 20 ∧ dayStdDev [10, 20, 30] = 10 ∧
     dayStdError [10, 20, 30] = 10 / Real.sqrt 3 ∧
     11.31 < dayErrorMargin [10, 20, 30] ∧ dayErrorMargin [10, 20, 30] < 11.32 ∧
     listMin [10, 20, 30] = 10 ∧ listMax [10, 20, 30] = 30) ∧
    (∀ x : ℚ, npMean [x] = x ∧ dayStdDev [x] = 0 ∧ dayStdError [x] = 0 ∧
      dayErrorMargin [x] = 0 ∧ listMin [x] = x ∧ listMax [x] = x) := by
  have hsd : dayStdDev [10, 20, 30] = 10 := by
    unfold dayStdDev
    rw [if_pos (by decide), show sampleVariance [10, 20, 30] = 100 from by
        norm_num [sampleVariance, npMean],
      show ((100 : ℚ) : ℝ) = (10 : ℝ) ^ 2 by norm_num]
    exact Real.sqrt_sq (by norm_num)
  have hse : dayStdError [10, 20, 30] = 10 / Real.sqrt 3 := by
    unfold dayStdError
    rw [hsd, show ((([10, 20, 30] : List ℚ).length : ℕ) : ℝ) = 3 by simp]
  have hem : dayErrorMargin [10, 20, 30] = 1.96 * (10 / Real.sqrt 3) := by
    unfold dayErrorMargin
    rw [hse]
  have h3 : (0 : ℝ) < Real.sqrt 3 := Real.sqrt_pos.mpr (by norm_num)
  have h3sq : Real.sqrt 3 * Real.sqrt 3 = 3 := Real.mul_self_sqrt (by norm_num)
  refine ⟨?_, ?_, ?_, ⟨by norm_num [npMean], hsd, hse, ?_, ?_, by decide, by decide⟩, ?_⟩
  · intro s r hr i hi
    unfold step4_statistical_analysis at hr
    by_cases hre : s.results_per_day.isEmpty
    · rw [if_pos hre] at hr
      cases hr
    · rw [if_neg hre] at hr
      obtain rfl := Option.some.inj hr
      have hlen : i < ((sortedAsc s.days).filter
          (fun d => !(lookupD s.results_per_day d []).isEmpty)).length := hi
      refine ⟨?_, getD_map_eq _ _ i hlen 0 _, getD_map_eq _ _ i hlen 0 _,
        getD_map_eq _ _ i hlen 0 _, getD_map_eq _ _ i hlen 0 _,
        getD_map_eq _ _ i hlen 0 _, getD_map_eq _ _ i hlen 0 _,
        getD_map_eq _ _ i hlen 0 _⟩
      have hmem : ((sortedAsc s.days).filter
          (fun d => !(lookupD s.results_per_day d []).isEmpty)).getD i 0 ∈
          (sortedAsc s.days).filter
            (fun d => !(lookupD s.results_per_day d []).isEmpty) := by
        rw [List.getD_eq_getElem _ 0 hlen]
        exact List.getElem_mem _
      have hkeep := (List.mem_filter.mp hmem).2
      intro hnil
      rw [hnil] at hkeep
      simp at hkeep
  · intro vs
    refine ⟨rfl, ?_, ?_, rfl, rfl⟩
    · intro h1
      unfold dayStdDev sampleVariance npMean
      rw [if_pos h1]
    · intro h1
      unfold dayStdDev
      rw [if_neg (by omega)]
  · intro day vs hvs
    exact ⟨step4_oneDay day vs hvs, listMin_mem vs hvs, listMax_mem vs hvs,
      fun v hv => ⟨listMin_le vs v hv, le_listMax vs v hv⟩⟩
  · rw [hem, show (1.96 : ℝ) * (10 / Real.sqrt 3) = 19.6 / Real.sqrt 3 by ring,
      lt_div_iff₀ h3]
    nlinarith [h3, h3sq]
  · rw [hem, show (1.96 : ℝ) * (10 / Real.sqrt 3) = 19.6 / Real.sqrt 3 by ring,
      div_lt_iff₀ h3]
    nlinarith [h3, h3sq]
  · intro x
    refine ⟨?_, ?_, ?_, ?_, rfl, rfl⟩
    · simp [npMean]
    · simp [dayStdDev]
    · simp [dayStdError, dayStdDev]
    · simp [dayErrorMargin, dayStdError, dayStdDev]

/-- Witness for C1: day 0 holding the single value 1, checked both
through the full aggregation step and entry-wise at index 0. -/
theorem C1_witness :
    ([1] : List ℚ) ≠ [] ∧
    (step4_statistical_analysis (oneDayState 0 [1]) = some (specDayStats 0 [1]) ∧
     listMin [1] ∈ ([1] : List ℚ) ∧ listMax [1] ∈ ([1] : List ℚ) ∧
     ∀ v ∈ ([1] : List ℚ), listMin [1] ≤ v ∧ v ≤ listMax [1]) ∧
    (0 < (specDayStats 0 [1]).days.length ∧
     (lookupD (oneDayState 0 [1]).results_per_day
        ((specDayStats 0 [1]).days.getD 0 0) [] ≠ [] ∧
      (specDayStats 0 [1]).averages.getD 0 0 =
        npMean (lookupD (oneDayState 0 [1]).results_per_day
          ((specDayStats 0 [1]).days.getD 0 0) []) ∧
      (specDayStats 0 [1]).standard_deviations.getD 0 0 =
        dayStdDev (lookupD (oneDayState 0 [1]).results_per_day
          ((specDayStats 0 [1]).days.getD 0 0) []) ∧
      (specDayStats 0 [1]).standard_errors.getD 0 0 =
        dayStdError (lookupD (oneDayState 0 [1]).results_per_day
          ((specDayStats 0 [1]).days.getD 0 0) []) ∧
      (specDayStats 0 [1]).error_margins.getD 0 0 =
        dayErrorMargin (lookupD (oneDayState 0 [1]).results_per_day
          ((specDayStats 0 [1]).days.getD 0 0) []) ∧
      (specDayStats 0 [1]).num_images.getD 0 0 =
        (lookupD (oneDayState 0 [1]).results_per_day
          ((specDayStats 0 [1]).days.getD 0 0) []).length ∧
      (specDayStats 0 [1]).minimums.getD 0 0 =
        listMin (lookupD (oneDayState 0 [1]).results_per_day
          ((specDayStats 0 [1]).days.getD 0 0) []) ∧
      (specDayStats 0 [1]).maximums.getD 0 0 =
        listMax (lookupD (oneDayState 0 [1]).results_per_day
          ((specDayStats 0 [1]).days.getD 0 0) []))) :=
  ⟨by decide,
   C1_day_statistics.2.2.1 0 [1] (by decide),
   by decide,
   C1_day_statistics.1 (oneDayState 0 [1]) (specDayStats 0 [1])
     (step4_oneDay 0 [1] (by decide)) 0 (by decide)⟩

/-- **C5**: when no day has any recorded percentage values, the
aggregation returns an absent result (`None`, when the results
dictionary is empty) or a result with no aggregated days, and every
exporter is a clean no-op: the export phase of `execute` emits no
files, the plot renderer emits no graphs, the summary CSV gets no rows,
the report gets no per-day stanzas, and — with no processed paths
either — the detailed CSV gets no rows. -/
theorem C5_empty_results_no_op (s : SystemData) (bf : String)
    (hempty : ∀ d, lookupD s.results_per_day d [] = []) :
    (s.results_per_day = [] →
      step4_statistical_analysis s = none ∧
      run_exports s (step4_statistical_analysis s) bf = []) ∧
    (∀ r, step4_statistical_analysis s = some r →
      r.days = [] ∧
      step5_generate_graphs (some r) bf = [] ∧
      step6_summary_rows r = [] ∧
      step7_report_stanzas (some r) = []) ∧
    ((∀ d, lookupD s.processed_paths d [] = []) → step6_detailed_data s = []) := by
  refine ⟨?_, ?_, ?_⟩
  · intro hres
    have h4 : step4_statistical_analysis s = none := by
      unfold step4_statistical_analysis
      rw [hres]
      rfl
    refine ⟨h4, ?_⟩
    rw [h4]
    rfl
  · intro r hr
    unfold step4_statistical_analysis at hr
    by_cases hres : s.results_per_day.isEmpty
    · rw [if_pos hres] at hr
      cases hr
    · rw [if_neg hres] at hr
      have hr' := Option.some.inj hr
      have hdays : r.days = [] := by
        rw [← hr']
        apply List.filter_eq_nil_iff.mpr
        intro d _
        simp [hempty d]
      refine ⟨hdays, ?_, ?_, ?_⟩
      · simp [step5_generate_graphs, hdays]
      · simp [step6_summary_rows, hdays]
      · simp [step7_report_stanzas, hdays]
  · intro hproc
    unfold step6_detailed_data
    have h : ∀ d ∈ sortedAsc s.days, detailedRowsForDay s d = ([] : List DetailedRow) := by
      intro d _
      unfold detailedRowsForDay
      rw [hproc d]
      apply List.filterMap_eq_nil_iff.mpr
      intro e _
      rfl
    rw [List.map_eq_map_iff.mpr h]
    simp

/-- Witness for C5 at the initial (fully empty) state. -/
theorem C5_witness :
    (∀ d : ℚ, lookupD emptyState.results_per_day d [] = []) ∧
    ((emptyState.results_per_day = [] →
      step4_statistical_analysis emptyState = none ∧
      run_exports emptyState (step4_statistical_analysis emptyState) "Results_X" = []) ∧
     (∀ r, step4_statistical_analysis emptyState = some r →
      r.days = [] ∧
      step5_generate_graphs (some r) "Results_X" = [] ∧
      step6_summary_rows r = [] ∧
      step7_report_stanzas (some r) = []) ∧
     ((∀ d, lookupD emptyState.processed_paths d [] = []) →
      step6_detailed_data emptyState = [])) :=
  ⟨fun _ => rfl, C5_empty_results_no_op emptyState "Results_X" (fun _ => rfl)⟩

/-! ## Ordering lemmas -/

theorem sortedAsc_eq_of_perm (l₁ l₂ : List ℚ) (h : l₁.Perm l₂) :
    sortedAsc l₁ = sortedAsc l₂ :=
  List.eq_of_perm_of_sorted
    ((List.perm_insertionSort _ l₁).trans (h.trans (List.perm_insertionSort _ l₂).symm))
    (List.sorted_insertionSort _ l₁) (List.sorted_insertionSort _ l₂)

theorem step3Fold_dicts_eq (load : String → Option Image) (bf : String) (L : List ℚ)
    (st₁ st₂ : SystemData)
    (himg : st₁.images_per_day = st₂.images_per_day)
    (hres : st₁.results_per_day = st₂.results_per_day)
    (hproc : st₁.processed_paths = st₂.processed_paths) :
    (step3Fold load bf L st₁).images_per_day = (step3Fold load bf L st₂).images_per_day ∧
    (step3Fold load bf L st₁).results_per_day = (step3Fold load bf L st₂).results_per_day ∧
    (step3Fold load bf L st₁).processed_paths = (step3Fold load bf L st₂).processed_paths := by
  induction L generalizing st₁ st₂ with
  | nil => exact ⟨himg, hres, hproc⟩
  | cons d rest ih =>
    rw [step3Fold, step3Fold]
    exact ih _ _ himg (by rw [hres, himg]) (by rw [hproc, himg])

theorem map_getD_range {α : Type} (l : List α) (d : α) :
    (List.range l.length).map (fun i => l.getD i d) = l := by
  apply List.ext_getElem
  · simp
  · intro i h1 h2
    simp [List.getD, List.getElem?_eq_getElem h2]

/-- **C8**: downstream steps iterate the registered days in ascending
numeric order: two states that registered the same days in different
orders sort them identically and get identical processing results,
aggregated statistics, and detailed rows; the aggregated day list is
sorted ascending, and the summary rows and report stanzas carry the
days in exactly that sorted order. -/
theorem C8_ascending_iteration (s₁ s₂ : SystemData)
    (hperm : s₁.days.Perm s₂.days)
    (hname : s₁.experiment_name = s₂.experiment_name)
    (hcult : s₁.culture_type = s₂.culture_type)
    (himg : s₁.images_per_day = s₂.images_per_day)
    (hres : s₁.results_per_day = s₂.results_per_day)
    (hproc : s₁.processed_paths = s₂.processed_paths) :
    sortedAsc s₁.days = sortedAsc s₂.days ∧
    step4_statistical_analysis s₁ = step4_statistical_analysis s₂ ∧
    step6_detailed_data s₁ = step6_detailed_data s₂ ∧
    (∀ load, (step3_process_images load s₁).results_per_day =
        (step3_process_images load s₂).results_per_day ∧
      (step3_process_images load s₁).processed_paths =
        (step3_process_images load s₂).processed_paths) ∧
    (∀ r, step4_statistical_analysis s₁ = some r →
      r.days.Sorted (· ≤ ·) ∧
      (step6_summary_rows r).map (fun row => row.day) = r.days ∧
      (step7_report_stanzas (some r)).map (fun st => st.day) = r.days) := by
  have hsort : sortedAsc s₁.days = sortedAsc s₂.days := sortedAsc_eq_of_perm _ _ hperm
  refine ⟨hsort, ?_, ?_, ?_, ?_⟩
  · unfold step4_statistical_analysis
    rw [hres, hsort]
  · unfold step6_detailed_data detailedRowsForDay
    rw [hsort, himg, hproc, hname, hcult]
  · intro load
    rw [step3_def, step3_def, hname, hsort]
    have h := step3Fold_dicts_eq load ("Results_" ++ (s₂.experiment_name.replace " " "_"))
      (sortedAsc s₂.days) s₁ s₂ himg hres hproc
    exact ⟨h.2.1, h.2.2⟩
  · intro r hr
    unfold step4_statistical_analysis at hr
    by_cases hre : s₁.results_per_day.isEmpty
    · rw [if_pos hre] at hr
      cases hr
    · rw [if_neg hre] at hr
      have hr' := Option.some.inj hr
      have hdays : r.days = (sortedAsc s₁.days).filter
          (fun d => !(lookupD s₁.results_per_day d []).isEmpty) := by
        rw [← hr']
      refine ⟨?_, ?_, ?_⟩
      · rw [hdays]
        exact (List.sorted_insertionSort _ _).filter _
      · unfold step6_summary_rows
        rw [List.map_map]
        exact map_getD_range r.days 0
      · simp only [step7_report_stanzas]
        by_cases hnil : r.days.isEmpty
        · rw [if_pos hnil]
          rw [List.isEmpty_iff] at hnil
          rw [hnil]
          rfl
        · rw [if_neg hnil, List.map_map]
          exact map_getD_range r.days 0

/-- Witness for C8: the scenario state and the same state with its days
registered in the opposite order. -/
theorem C8_witness :
    scenarioState.days.Perm scenarioStatePermuted.days ∧
    (sortedAsc scenarioState.days = sortedAsc scenarioStatePermuted.days ∧
    step4_statistical_analysis scenarioState =
      step4_statistical_analysis scenarioStatePermuted ∧
    step6_detailed_data scenarioState = step6_detailed_data scenarioStatePermuted ∧
    (∀ load, (step3_process_images load scenarioState).results_per_day =
        (step3_process_images load scenarioStatePermuted).results_per_day ∧
      (step3_process_images load scenarioState).processed_paths =
        (step3_process_images load scenarioStatePermuted).processed_paths) ∧
    (∀ r, step4_statistical_analysis scenarioState = some r →
      r.days.Sorted (· ≤ ·) ∧
      (step6_summary_rows r).map (fun row => row.day) = r.days ∧
      (step7_report_stanzas (some r)).map (fun st => st.day) = r.days)) :=
  ⟨by decide,
   C8_ascending_iteration scenarioState scenarioStatePermuted (by decide) rfl rfl rfl rfl rfl⟩

/-- **C6**: for the end-to-end scenario (day 0 with recorded
percentages `[15, 25]`, day 1 with `[40]`), the aggregation yields
exactly two per-day rows — day 0 with count 2, mean 20,
stdDev `√50 ≈ 7.07`, errorMargin 9.8, min 15, max 25, and day 1 with
count 1, mean 40, stdDev 0, errorMargin 0 — and the final trend
summary reports an increase of 20.0% (last mean minus first mean). -/
theorem C6_end_to_end :
    step4_statistical_analysis scenarioState = some scenarioStats ∧
    7.07 < Real.sqrt 50 ∧ Real.sqrt 50 < 7.08 ∧
    step6_summary_rows scenarioStats =
      [⟨0, 2, 20, Real.sqrt 50, Real.sqrt 50 / Real.sqrt 2, 9.8, 15, 25⟩,
       ⟨1, 1, 40, 0, 0, 0, 40, 40⟩] ∧
    show_final_summary_trend (some scenarioStats) = some (true, 20) := by
  have hsq : Real.sqrt 50 * Real.sqrt 50 = 50 := Real.mul_self_sqrt (by norm_num)
  have h50 : Real.sqrt 50 / Real.sqrt 2 = 5 := by
    rw [← Real.sqrt_div (by norm_num : (0:ℝ) ≤ 50)]
    norm_num
    rw [show (25:ℝ) = 5 ^ 2 by norm_num]
    exact Real.sqrt_sq (by norm_num)
  have hsd0 : dayStdDev [15, 25] = Real.sqrt 50 := by
    unfold dayStdDev
    rw [if_pos (by decide),
      show sampleVariance [15, 25] = 50 from by norm_num [sampleVariance, npMean]]
    norm_num
  have hse0 : dayStdError [15, 25] = Real.sqrt 50 / Real.sqrt 2 := by
    unfold dayStdError
    rw [hsd0, show ((([15, 25] : List ℚ).length : ℕ) : ℝ) = 2 by simp]
  have hem0 : dayErrorMargin [15, 25] = 9.8 := by
    unfold dayErrorMargin
    rw [hse0, h50]
    norm_num
  have hsd1 : dayStdDev [40] = 0 := by simp [dayStdDev]
  have hse1 : dayStdError [40] = 0 := by simp [dayStdError, hsd1]
  have hem1 : dayErrorMargin [40] = 0 := by simp [dayErrorMargin, hse1]
  have hm0 : npMean [15, 25] = 20 := by norm_num [npMean]
  have hm1 : npMean [40] = 40 := by norm_num [npMean]
  refine ⟨?_, by nlinarith [Real.sqrt_nonneg 50, hsq], by nlinarith [Real.sqrt_nonneg 50, hsq],
    ?_, ?_⟩
  · unfold step4_statistical_analysis
    rw [if_neg (by decide)]
    have hds : (sortedAsc scenarioState.days).filter
        (fun d => !(lookupD scenarioState.results_per_day d []).isEmpty) = [0, 1] := by decide
    simp only [hds, List.map_cons, List.map_nil, Option.some.injEq]
    rw [show lookupD scenarioState.results_per_day 0 [] = [15, 25] from by decide,
      show lookupD scenarioState.results_per_day 1 [] = [40] from by decide]
    unfold scenarioStats
    rw [hsd0, hse0, hem0, hsd1, hse1, hem1, hm0, hm1]
    norm_num [listMin, listMax]
  · unfold step6_summary_rows scenarioStats
    norm_num [List.range_succ]
  · unfold show_final_summary_trend scenarioStats
    norm_num
